import Mathlib

/-!
Shallow embedding of the text-to-chunk retrieval pipeline of the `ai_brain`
repository (`src/retrieval/chunker.py`, `src/retrieval/embeddings.py`,
`src/retrieval/search.py`, `src/retrieval/rag_pipeline.py`,
`src/config/settings.py`), together with theorems settling the specification
claims about it.

File I/O is abstracted away: a markdown document is a list of its lines, and
the page base name (the filename without directory and extension) is passed
explicitly.  Python strings are Lean `String`s; Python `None` becomes
`Option`.  The Python string primitives used by the code (`str.strip`,
`str.split()` with no separator, `"\n".join`, `str.rsplit(" ", 1)`) are
embedded below on `List Char`, all using `Char.isWhitespace` as the
whitespace class.
-/

namespace AiBrain

/-- Embedding of Python `str.split()` (no separator): split on runs of
whitespace, dropping empty tokens.  The accumulator holds the current
word's characters in reverse. -/
def wordsAux : List Char → List Char → List String
  | [], acc => if acc = [] then [] else [String.mk acc.reverse]
  | c :: cs, acc =>
      if c.isWhitespace then
        if acc = [] then wordsAux cs [] else String.mk acc.reverse :: wordsAux cs []
      else wordsAux cs (c :: acc)

/-- The list of whitespace-separated words of a string (Python `s.split()`). -/
def pyWords (s : String) : List String :=
  wordsAux s.toList []

/-- Embedding of Python `str.strip()`: drop leading and trailing whitespace. -/
def pyStrip (s : String) : String :=
  String.mk (((s.toList.dropWhile Char.isWhitespace).reverse.dropWhile
    Char.isWhitespace).reverse)

/-- Embedding of Python `"\n".join(lines)`: the separator goes between
consecutive elements. -/
def joinLines : List String → String
  | [] => ""
  | s :: rest =>
      match rest with
      | [] => s
      | _ :: _ => s ++ "\n" ++ joinLines rest

/-- Embedding of Python `x or d` for an optional int argument (`None` and
`0` are falsy and select the default `d`). -/
def pyOrNat (x : Option Nat) (d : Nat) : Nat :=
  match x with
  | none => d
  | some v => if v = 0 then d else v

/-- Embedding of Python `x or d` for an optional string argument (`None`
and `""` are falsy and select the default `d`). -/
def pyOrStr (x : Option String) (d : String) : String :=
  match x with
  | none => d
  | some v => if v = "" then d else v

/-! `src/config/settings.py`, `RAG_CONFIG`. -/

def RAG_CONFIG_chunk_size : Nat := 1000

def RAG_CONFIG_chunk_overlap : Nat := 200

def RAG_CONFIG_embedding_model : String := "all-MiniLM-L6-v2"

/-! ### Chunker (`src/retrieval/chunker.py`) -/

/-- Embedding of `strip_page_id(name)`: split on the last space; if the suffix is exactly
32 characters long it is the page id, else the whole name is the page. -/
def strip_page_id (name : String) : String × Option String :=
  let cs := name.toList
  match cs.reverse.findIdx? (· = ' ') with
  | none => (name, none)
  | some j =>
      let afterChars := (cs.reverse.take j).reverse
      let beforeChars := cs.take (cs.length - j - 1)
      if afterChars.length = 32 then
        (String.mk beforeChars, some (String.mk afterChars))
      else (name, none)

/-- A chunk record as produced by `chunk_md_file` (a Python dict with fixed
keys). -/
structure Chunk where
  page : String
  page_id : Option String
  chunk_id : Nat
  header_path : List String
  content : String
  deriving Repr, DecidableEq

/-- The instance attributes of `TextChunker`. -/
structure TextChunker where
  chunk_size : Nat
  chunk_overlap : Nat
  deriving Repr, DecidableEq

/-- Embedding of `TextChunker.__init__(chunk_size=None, chunk_overlap=None)`: each falsy
argument (absent or 0) is replaced by the `RAG_CONFIG` default. -/
def TextChunker.init (chunk_size chunk_overlap : Option Nat) : TextChunker :=
  { chunk_size := pyOrNat chunk_size RAG_CONFIG_chunk_size
    chunk_overlap := pyOrNat chunk_overlap RAG_CONFIG_chunk_overlap }

/-- The mutable local state of `chunk_md_file`'s line loop. -/
structure ChunkState where
  header : Option String
  header_word_count : Nat
  header_path : List String
  current_chunk : List String
  chunks : List Chunk
  word_count : Nat
  chunk_id : Nat
  deriving Repr, DecidableEq

/-- The initial loop state of `chunk_md_file`. -/
def initState : ChunkState :=
  { header := none, header_word_count := 0, header_path := []
    current_chunk := [], chunks := [], word_count := 0, chunk_id := 1 }

/-- Embedding of the regex match `re.match(r"^(#{1,6}) (.+)", stripped)`:
1–6 leading `#` characters, then a space, then at least one character.
Returns the heading level and the text after the space. -/
def parseHeading (s : String) : Option (Nat × String) :=
  let cs := s.toList
  let k := (cs.takeWhile (· = '#')).length
  if 1 ≤ k ∧ k ≤ 6 then
    match cs.drop k with
    | ' ' :: rest => if rest = [] then none else some (k, String.mk rest)
    | _ => none
  else none

/-- Embedding of `add_content_with_count(content)`: append the line to the buffer and add
its word count. -/
def add_content_with_count (content : String) (st : ChunkState) : ChunkState :=
  { st with current_chunk := st.current_chunk ++ [content]
            word_count := st.word_count + (pyWords content).length }

/-- Embedding of `flush_chunk()`: emit the buffer as a chunk if its trimmed join is
non-empty (header path defaulting to `["No Header"]` when empty), then clear
the buffer and word count. -/
def flush_chunk (page : String) (page_id : Option String) (st : ChunkState) :
    ChunkState :=
  let content := pyStrip (joinLines st.current_chunk)
  let st' :=
    if content ≠ "" then
      { st with
          chunks := st.chunks ++
            [{ page := page, page_id := page_id, chunk_id := st.chunk_id
               header_path :=
                 if st.header_path = [] then ["No Header"] else st.header_path
               content := content }]
          chunk_id := st.chunk_id + 1 }
    else st
  { st' with current_chunk := [], word_count := 0 }

/-- Python truthiness of the `header` variable (`None` and `""` are falsy). -/
def headerTruthy : Option String → Bool
  | none => false
  | some s => s ≠ ""

/-- Embedding of `start_new_chunk_with_header()`: when a chunk flushed mid-section, seed
the next buffer with the current header line and its word count. -/
def start_new_chunk_with_header (st : ChunkState) : ChunkState :=
  match st.header with
  | some h =>
      if h ≠ "" then
        { st with current_chunk := st.current_chunk ++ [h]
                  word_count := st.header_word_count }
      else st
  | none => st

/-- The body of `chunk_md_file`'s `for line in lines` loop. -/
def processLine (chunk_size : Nat) (page : String) (page_id : Option String)
    (st : ChunkState) (line : String) : ChunkState :=
  let stripped := pyStrip line
  if stripped = "" then st
  else
    match parseHeading stripped with
    | some (level, header_text) =>
        let st := flush_chunk page page_id st
        let st := { st with header := some stripped
                            header_word_count := (pyWords stripped).length }
        let st := { st with
          header_path := st.header_path.take (level - 1) ++ [header_text] }
        add_content_with_count stripped st
    | none =>
        let st := add_content_with_count stripped st
        if st.word_count ≥ chunk_size then
          start_new_chunk_with_header (flush_chunk page page_id st)
        else st

/-- Embedding of `TextChunker.chunk_md_file`: split a markdown document (given as its
base file name and list of lines) into header-aware chunks. -/
def chunk_md_file (c : TextChunker) (base : String) (lines : List String) :
    List Chunk :=
  let pp := strip_page_id base
  let st := lines.foldl (processLine c.chunk_size pp.1 pp.2) initState
  (flush_chunk pp.1 pp.2 st).chunks

/-! ### Lemmas about the word model -/

/-- Splitting at a whitespace character separates the word lists of the two
sides: the character both flushes the pending word and starts afresh. -/
theorem wordsAux_append_ws (w : Char) (hw : w.isWhitespace) :
    ∀ (xs ys : List Char) (acc : List Char),
      wordsAux (xs ++ w :: ys) acc = wordsAux xs acc ++ wordsAux ys [] := by
  intro xs
  induction xs with
  | nil =>
      intro ys acc
      simp only [List.nil_append, wordsAux, hw, if_true]
      by_cases hacc : acc = [] <;> simp [hacc]
  | cons x xs ih =>
      intro ys acc
      simp only [List.cons_append, wordsAux]
      by_cases hx : x.isWhitespace
      · simp only [hx, if_true]
        by_cases hacc : acc = [] <;> simp [hacc, ih]
      · simp [hx, ih]

/-- A list of whitespace characters contributes no words beyond flushing the
accumulator. -/
theorem wordsAux_all_ws :
    ∀ (ws : List Char), (∀ c ∈ ws, c.isWhitespace) →
      ∀ acc, wordsAux ws acc = if acc = [] then [] else [String.mk acc.reverse] := by
  intro ws
  induction ws with
  | nil => intro _ acc; rfl
  | cons w ws ih =>
      intro h acc
      have hw : w.isWhitespace = true := h w (List.mem_cons_self _ _)
      have hws : ∀ c ∈ ws, c.isWhitespace = true := fun c hc => h c (List.mem_cons_of_mem _ hc)
      by_cases hacc : acc = [] <;>
        simp [wordsAux, hw, hacc, ih hws]

/-- A trailing run of whitespace characters never changes the word list. -/
theorem wordsAux_append_trailing_ws :
    ∀ (xs ws : List Char), (∀ c ∈ ws, c.isWhitespace) →
      ∀ acc, wordsAux (xs ++ ws) acc = wordsAux xs acc := by
  intro xs
  induction xs with
  | nil =>
      intro ws hws acc
      simp [wordsAux_all_ws ws hws acc, wordsAux]
  | cons x xs ih =>
      intro ws hws acc
      simp only [List.cons_append, wordsAux]
      by_cases hx : x.isWhitespace
      · by_cases hacc : acc = [] <;> simp [hx, hacc, ih ws hws]
      · simp [hx, ih ws hws]

/-- A leading run of whitespace characters never changes the word list. -/
theorem wordsAux_dropWhile_ws :
    ∀ (xs : List Char), wordsAux (xs.dropWhile Char.isWhitespace) [] = wordsAux xs [] := by
  intro xs
  induction xs with
  | nil => rfl
  | cons x xs ih =>
      by_cases hx : x.isWhitespace
      · simpa [List.dropWhile, hx, wordsAux] using ih
      · simp [List.dropWhile, hx]

/-- Python `strip` does not change the word list of a string. -/
theorem pyWords_pyStrip (s : String) : pyWords (pyStrip s) = pyWords s := by
  unfold pyWords pyStrip
  have htl : (String.mk (((s.toList.dropWhile Char.isWhitespace).reverse.dropWhile
      Char.isWhitespace).reverse)).toList
      = ((s.toList.dropWhile Char.isWhitespace).reverse.dropWhile
      Char.isWhitespace).reverse := rfl
  rw [htl]
  set ds := s.toList.dropWhile Char.isWhitespace with hds
  have hsplit : ds = (ds.reverse.dropWhile Char.isWhitespace).reverse
      ++ (ds.reverse.takeWhile Char.isWhitespace).reverse := by
    have := List.takeWhile_append_dropWhile Char.isWhitespace ds.reverse
    calc ds = ds.reverse.reverse := (List.reverse_reverse ds).symm
      _ = (ds.reverse.takeWhile Char.isWhitespace
            ++ ds.reverse.dropWhile Char.isWhitespace).reverse := by rw [this]
      _ = _ := by rw [List.reverse_append]
  have hws : ∀ c ∈ (ds.reverse.takeWhile Char.isWhitespace).reverse, c.isWhitespace := by
    intro c hc
    rw [List.mem_reverse] at hc
    exact List.mem_takeWhile_imp hc
  calc wordsAux ((ds.reverse.dropWhile Char.isWhitespace).reverse) []
      = wordsAux ((ds.reverse.dropWhile Char.isWhitespace).reverse
          ++ (ds.reverse.takeWhile Char.isWhitespace).reverse) [] :=
        (wordsAux_append_trailing_ws _ _ hws []).symm
    _ = wordsAux ds [] := by rw [← hsplit]
    _ = wordsAux s.toList [] := wordsAux_dropWhile_ws s.toList

/-- Words of a string concatenated with a newline and another string. -/
theorem pyWords_append_newline (a b : String) :
    pyWords (a ++ "\n" ++ b) = pyWords a ++ pyWords b := by
  unfold pyWords
  have h : (a ++ "\n" ++ b).toList = a.toList ++ '\n' :: b.toList := by
    simp [String.toList, String.data_append]
  rw [h, wordsAux_append_ws '\n' (by decide)]

/-- Words of the `"\n".join` of a list of lines is the concatenation of the
lines' word lists. -/
theorem pyWords_joinLines :
    ∀ (ls : List String), pyWords (joinLines ls) = (ls.map pyWords).flatten := by
  intro ls
  induction ls with
  | nil => simp [joinLines, pyWords, wordsAux]
  | cons s rest ih =>
      cases rest with
      | nil => simp [joinLines]
      | cons s' rest' =>
          have hj : joinLines (s :: s' :: rest')
              = s ++ "\n" ++ joinLines (s' :: rest') := rfl
          rw [hj, pyWords_append_newline, ih]
          simp

/-- The multiset of words of a string. -/
def wordsMS (s : String) : Multiset String := (pyWords s : List String)

/-- The combined multiset of words across a list of strings. -/
def listWordsMS (ls : List String) : Multiset String :=
  (ls.map wordsMS).sum

theorem listWordsMS_nil : listWordsMS [] = 0 := rfl

theorem listWordsMS_append (a b : List String) :
    listWordsMS (a ++ b) = listWordsMS a + listWordsMS b := by
  unfold listWordsMS
  rw [List.map_append, List.sum_append]

theorem listWordsMS_singleton (s : String) : listWordsMS [s] = wordsMS s := by
  unfold listWordsMS
  simp

/-- A string that strips to the empty string (a blank line) has no words. -/
theorem wordsMS_of_blank {s : String} (h : pyStrip s = "") : wordsMS s = 0 := by
  unfold wordsMS
  rw [← pyWords_pyStrip s, h]
  rfl

/-- The trimmed joined buffer carries exactly the words of the buffer lines. -/
theorem wordsMS_strip_join (buf : List String) :
    wordsMS (pyStrip (joinLines buf)) = listWordsMS buf := by
  unfold wordsMS
  rw [pyWords_pyStrip, pyWords_joinLines]
  unfold listWordsMS
  induction buf with
  | nil => rfl
  | cons s rest ih =>
      simp only [List.map_cons, List.flatten_cons, List.sum_cons]
      rw [← Multiset.coe_add, ih]
      rfl

/-! ### Word bookkeeping of `flush_chunk` -/

/-- Flushing moves the buffer's words into the emitted chunks (an empty
trimmed buffer carries no words and is dropped) and clears the buffer. -/
theorem flush_chunk_words (page : String) (page_id : Option String)
    (st : ChunkState) :
    listWordsMS ((flush_chunk page page_id st).chunks.map Chunk.content)
      = listWordsMS (st.chunks.map Chunk.content) + listWordsMS st.current_chunk := by
  unfold flush_chunk
  by_cases h : pyStrip (joinLines st.current_chunk) = ""
  · have h0 : listWordsMS st.current_chunk = 0 := by
      rw [← wordsMS_strip_join, h]
      rfl
    simp [h, h0]
  · simp only [h, ne_eq, not_false_iff, if_true, ite_not, if_neg]
    rw [List.map_append, listWordsMS_append]
    simp only [List.map_cons, List.map_nil]
    rw [listWordsMS_singleton]
    rw [wordsMS_strip_join]

theorem flush_chunk_current (page : String) (page_id : Option String)
    (st : ChunkState) : (flush_chunk page page_id st).current_chunk = [] := by
  unfold flush_chunk
  by_cases h : pyStrip (joinLines st.current_chunk) = "" <;> simp [h]

/-! ### Instrumented loop: tracking re-injected header lines

`processLineI` runs the same loop body as `processLine` but additionally
records, in a ghost list, every header line that
`start_new_chunk_with_header` re-injects into a fresh buffer after a forced
mid-section split.  Its first component coincides with `processLine`. -/

def processLineI (chunk_size : Nat) (page : String) (page_id : Option String)
    (sg : ChunkState × List String) (line : String) : ChunkState × List String :=
  let st := sg.1
  let stripped := pyStrip line
  if stripped = "" then sg
  else
    match parseHeading stripped with
    | some (level, header_text) =>
        let st := flush_chunk page page_id st
        let st := { st with header := some stripped
                            header_word_count := (pyWords stripped).length }
        let st := { st with
          header_path := st.header_path.take (level - 1) ++ [header_text] }
        (add_content_with_count stripped st, sg.2)
    | none =>
        let st := add_content_with_count stripped st
        if st.word_count ≥ chunk_size then
          let st := flush_chunk page page_id st
          (start_new_chunk_with_header st,
           if headerTruthy st.header then sg.2 ++ [st.header.getD ""] else sg.2)
        else (st, sg.2)

/-- The header lines re-injected by forced mid-section splits during a run of
`chunk_md_file` (the final flush never re-injects). -/
def reinjected_headers (c : TextChunker) (base : String)
    (lines : List String) : List String :=
  let pp := strip_page_id base
  (lines.foldl (processLineI c.chunk_size pp.1 pp.2) (initState, [])).2

/-- The instrumented step projects onto the plain step. -/
theorem processLineI_fst (chunk_size : Nat) (page : String)
    (page_id : Option String) (sg : ChunkState × List String) (line : String) :
    (processLineI chunk_size page page_id sg line).1
      = processLine chunk_size page page_id sg.1 line := by
  unfold processLineI processLine
  by_cases h : pyStrip line = ""
  · simp [h]
  · simp only [h, if_neg, ite_false]
    cases hp : parseHeading (pyStrip line) with
    | none => by_cases hw : (add_content_with_count (pyStrip line) sg.1).word_count ≥ chunk_size <;>
        simp [h, hp, hw]
    | some lt => cases lt with
      | mk level header_text => simp [h, hp]

/-- The instrumented fold projects onto the plain fold. -/
theorem foldl_processLineI_fst (chunk_size : Nat) (page : String)
    (page_id : Option String) :
    ∀ (lines : List String) (sg : ChunkState × List String),
      (lines.foldl (processLineI chunk_size page page_id) sg).1
        = lines.foldl (processLine chunk_size page page_id) sg.1 := by
  intro lines
  induction lines with
  | nil => intro sg; rfl
  | cons l rest ih =>
      intro sg
      simp only [List.foldl_cons]
      rw [ih, processLineI_fst]

/-! ### Field-preservation facts and step characterizations -/

theorem flush_chunk_header (page : String) (page_id : Option String)
    (st : ChunkState) : (flush_chunk page page_id st).header = st.header := by
  unfold flush_chunk
  by_cases h : pyStrip (joinLines st.current_chunk) = "" <;> simp [h]

theorem flush_chunk_header_path (page : String) (page_id : Option String)
    (st : ChunkState) : (flush_chunk page page_id st).header_path = st.header_path := by
  unfold flush_chunk
  by_cases h : pyStrip (joinLines st.current_chunk) = "" <;> simp [h]

theorem add_content_header (content : String) (st : ChunkState) :
    (add_content_with_count content st).header = st.header := rfl

theorem start_new_chunk_chunks (st : ChunkState) :
    (start_new_chunk_with_header st).chunks = st.chunks := by
  unfold start_new_chunk_with_header
  cases st.header with
  | none => rfl
  | some hd => by_cases hhd : hd = "" <;> simp [hhd]

theorem start_new_chunk_current (st : ChunkState) :
    (start_new_chunk_with_header st).current_chunk
      = if headerTruthy st.header then st.current_chunk ++ [st.header.getD ""]
        else st.current_chunk := by
  unfold start_new_chunk_with_header headerTruthy
  cases st.header with
  | none => rfl
  | some hd => by_cases hhd : hd = "" <;> simp [hhd]

/-- A blank line (one that strips to the empty string) leaves the state and
the ghost list unchanged. -/
theorem processLineI_blank (chunk_size : Nat) (page : String)
    (page_id : Option String) (sg : ChunkState × List String) (line : String)
    (hb : pyStrip line = "") :
    processLineI chunk_size page page_id sg line = sg := by
  unfold processLineI
  simp [hb]

/-- A heading line flushes, records the header, adjusts the path, and seeds
the buffer with the raw heading line. -/
theorem processLineI_heading (chunk_size : Nat) (page : String)
    (page_id : Option String) (sg : ChunkState × List String) (line : String)
    (level : Nat) (header_text : String)
    (hp : parseHeading (pyStrip line) = some (level, header_text)) :
    processLineI chunk_size page page_id sg line
      = (add_content_with_count (pyStrip line)
          { flush_chunk page page_id sg.1 with
              header := some (pyStrip line)
              header_word_count := (pyWords (pyStrip line)).length
              header_path :=
                (flush_chunk page page_id sg.1).header_path.take (level - 1)
                  ++ [header_text] },
         sg.2) := by
  have hb : pyStrip line ≠ "" := by
    intro hcontra
    rw [hcontra] at hp
    simp [parseHeading] at hp
  unfold processLineI
  simp [hb, hp]

/-- A content line that keeps the running count below the budget is simply
buffered. -/
theorem processLineI_content_small (chunk_size : Nat) (page : String)
    (page_id : Option String) (sg : ChunkState × List String) (line : String)
    (hb : pyStrip line ≠ "") (hp : parseHeading (pyStrip line) = none)
    (hw : ¬ (add_content_with_count (pyStrip line) sg.1).word_count ≥ chunk_size) :
    processLineI chunk_size page page_id sg line
      = (add_content_with_count (pyStrip line) sg.1, sg.2) := by
  unfold processLineI
  simp [hb, hp, hw]

/-- A content line that reaches the budget forces a flush followed by header
re-injection; the re-injected header (when present) is recorded. -/
theorem processLineI_content_flush (chunk_size : Nat) (page : String)
    (page_id : Option String) (sg : ChunkState × List String) (line : String)
    (hb : pyStrip line ≠ "") (hp : parseHeading (pyStrip line) = none)
    (hw : (add_content_with_count (pyStrip line) sg.1).word_count ≥ chunk_size) :
    processLineI chunk_size page page_id sg line
      = (start_new_chunk_with_header
           (flush_chunk page page_id (add_content_with_count (pyStrip line) sg.1)),
         if headerTruthy sg.1.header then sg.2 ++ [sg.1.header.getD ""] else sg.2) := by
  unfold processLineI
  simp [hb, hp, hw, flush_chunk_header, add_content_header]

theorem ac_shuffle_two {M : Type} [AddCommMonoid M] {a b p g : M}
    (h : a + b = p + g) (x y : M) : a + (b + x) + y = p + x + (g + y) := by
  calc a + (b + x) + y = (a + b) + (x + y) := by abel
    _ = (p + g) + (x + y) := by rw [h]
    _ = p + x + (g + y) := by abel

theorem ac_shuffle_one {M : Type} [AddCommMonoid M] {a b p g : M}
    (h : a + b = p + g) (x : M) : a + (b + x) = p + x + g := by
  calc a + (b + x) = (a + b) + x := by abel
    _ = (p + g) + x := by rw [h]
    _ = p + x + g := by abel

/-- The word-conservation invariant of the loop: words emitted so far plus
words in the buffer equal words of the processed lines plus words of the
re-injected headers recorded so far. -/
def chunkWordsInv (pref : List String) (sg : ChunkState × List String) : Prop :=
  listWordsMS (sg.1.chunks.map Chunk.content) + listWordsMS sg.1.current_chunk
    = listWordsMS pref + listWordsMS sg.2

theorem chunkWordsInv_init : chunkWordsInv [] (initState, []) := by
  unfold chunkWordsInv initState
  rfl

/-- One loop iteration preserves the word-conservation invariant. -/
theorem chunkWordsInv_step (chunk_size : Nat) (page : String)
    (page_id : Option String) (pref : List String)
    (sg : ChunkState × List String) (line : String)
    (h : chunkWordsInv pref sg) :
    chunkWordsInv (pref ++ [line]) (processLineI chunk_size page page_id sg line) := by
  unfold chunkWordsInv at h ⊢
  rw [listWordsMS_append, listWordsMS_singleton]
  have hline : wordsMS (pyStrip line) = wordsMS line := by
    unfold wordsMS
    rw [pyWords_pyStrip]
  by_cases hb : pyStrip line = ""
  · have h0 : wordsMS line = 0 := wordsMS_of_blank hb
    rw [processLineI_blank _ _ _ _ _ hb, h, h0, add_zero]
  · cases hp : parseHeading (pyStrip line) with
    | some lt =>
        cases lt with
        | mk level header_text =>
            rw [processLineI_heading _ _ _ _ _ _ _ hp]
            unfold add_content_with_count
            simp only [List.map_append]
            rw [listWordsMS_append]
            simp only [flush_chunk_current, List.nil_append]
            rw [flush_chunk_words, listWordsMS_singleton, hline, h]
            abel
    | none =>
        by_cases hw : (add_content_with_count (pyStrip line) sg.1).word_count ≥ chunk_size
        · rw [processLineI_content_flush _ _ _ _ _ hb hp hw]
          simp only [start_new_chunk_chunks, start_new_chunk_current,
            flush_chunk_current, flush_chunk_header, add_content_header,
            List.nil_append]
          rw [flush_chunk_words]
          unfold add_content_with_count
          simp only [List.nil_append]
          rw [listWordsMS_append, listWordsMS_singleton, hline]
          cases ht : headerTruthy sg.1.header
          · simp only [ht, Bool.false_eq_true, if_false, ite_false]
            rw [listWordsMS_nil, add_zero]
            exact ac_shuffle_one h _
          · simp only [ht, if_true, ite_true]
            rw [listWordsMS_singleton, listWordsMS_append, listWordsMS_singleton]
            exact ac_shuffle_two h _ _
        · rw [processLineI_content_small _ _ _ _ _ hb hp hw]
          unfold add_content_with_count
          simp only []
          rw [listWordsMS_append, listWordsMS_singleton, hline]
          exact ac_shuffle_one h _

/-- The word-conservation invariant holds after folding over any line list. -/
theorem chunkWordsInv_fold (chunk_size : Nat) (page : String)
    (page_id : Option String) :
    ∀ (lines pref : List String) (sg : ChunkState × List String),
      chunkWordsInv pref sg →
      chunkWordsInv (pref ++ lines)
        (lines.foldl (processLineI chunk_size page page_id) sg) := by
  intro lines
  induction lines with
  | nil => intro pref sg h; simpa using h
  | cons l rest ih =>
      intro pref sg h
      have h1 := chunkWordsInv_step chunk_size page page_id pref sg l h
      have h2 := ih (pref ++ [l]) _ h1
      simpa using h2

/-- C1.  Chunk coverage: for every document, the multiset of
whitespace-separated words across all chunks emitted by `chunk_md_file` —
after removing, from each chunk started by a forced mid-section split, the
one re-injected header line that seeds it (collected in
`reinjected_headers`) — equals the multiset of words of the original
document. -/
theorem chunk_coverage (c : TextChunker) (base : String) (lines : List String) :
    listWordsMS ((chunk_md_file c base lines).map Chunk.content)
      = listWordsMS lines + listWordsMS (reinjected_headers c base lines) := by
  have hinv := chunkWordsInv_fold c.chunk_size (strip_page_id base).1
    (strip_page_id base).2 lines [] (initState, []) chunkWordsInv_init
  unfold chunkWordsInv at hinv
  rw [List.nil_append] at hinv
  unfold chunk_md_file reinjected_headers
  simp only []
  rw [← foldl_processLineI_fst c.chunk_size (strip_page_id base).1
    (strip_page_id base).2 lines (initState, [])]
  rw [flush_chunk_words]
  exact hinv

/-! ### Characterizations of the plain loop body -/

theorem processLine_blank (chunk_size : Nat) (page : String)
    (page_id : Option String) (st : ChunkState) (line : String)
    (hb : pyStrip line = "") :
    processLine chunk_size page page_id st line = st := by
  have h2 := processLineI_fst chunk_size page page_id (st, []) line
  rw [processLineI_blank _ _ _ _ _ hb] at h2
  exact h2.symm

theorem processLine_heading (chunk_size : Nat) (page : String)
    (page_id : Option String) (st : ChunkState) (line : String)
    (level : Nat) (header_text : String)
    (hp : parseHeading (pyStrip line) = some (level, header_text)) :
    processLine chunk_size page page_id st line
      = add_content_with_count (pyStrip line)
          { flush_chunk page page_id st with
              header := some (pyStrip line)
              header_word_count := (pyWords (pyStrip line)).length
              header_path :=
                (flush_chunk page page_id st).header_path.take (level - 1)
                  ++ [header_text] } := by
  have h2 := processLineI_fst chunk_size page page_id (st, []) line
  rw [processLineI_heading _ _ _ _ _ _ _ hp] at h2
  exact h2.symm

theorem processLine_content_small (chunk_size : Nat) (page : String)
    (page_id : Option String) (st : ChunkState) (line : String)
    (hb : pyStrip line ≠ "") (hp : parseHeading (pyStrip line) = none)
    (hw : ¬ (add_content_with_count (pyStrip line) st).word_count ≥ chunk_size) :
    processLine chunk_size page page_id st line
      = add_content_with_count (pyStrip line) st := by
  have h2 := processLineI_fst chunk_size page page_id (st, []) line
  rw [processLineI_content_small _ _ _ _ _ hb hp hw] at h2
  exact h2.symm

theorem processLine_content_flush (chunk_size : Nat) (page : String)
    (page_id : Option String) (st : ChunkState) (line : String)
    (hb : pyStrip line ≠ "") (hp : parseHeading (pyStrip line) = none)
    (hw : (add_content_with_count (pyStrip line) st).word_count ≥ chunk_size) :
    processLine chunk_size page page_id st line
      = start_new_chunk_with_header
          (flush_chunk page page_id (add_content_with_count (pyStrip line) st)) := by
  have h2 := processLineI_fst chunk_size page page_id (st, []) line
  rw [processLineI_content_flush _ _ _ _ _ hb hp hw] at h2
  exact h2.symm

/-! ### Chunk-id density (C7) -/

/-- The id invariant: the next id is one past the number of emitted chunks,
and the emitted ids so far are exactly `1..n` in order. -/
def chunkIdInv (st : ChunkState) : Prop :=
  st.chunk_id = st.chunks.length + 1 ∧
  st.chunks.map Chunk.chunk_id = List.range' 1 st.chunks.length

theorem chunkIdInv_init : chunkIdInv initState := by
  unfold chunkIdInv initState
  exact ⟨rfl, rfl⟩

theorem chunkIdInv_flush (page : String) (page_id : Option String)
    (st : ChunkState) (h : chunkIdInv st) :
    chunkIdInv (flush_chunk page page_id st) := by
  obtain ⟨h1, h2⟩ := h
  unfold flush_chunk
  by_cases hc : pyStrip (joinLines st.current_chunk) = ""
  · simpa [hc, chunkIdInv] using ⟨h1, h2⟩
  · simp only [hc, ne_eq, not_false_iff, if_true, ite_not, if_neg, chunkIdInv]
    constructor
    · simp [h1]
    · simp only [List.map_append, List.map_cons, List.map_nil, List.length_append,
        List.length_cons, List.length_nil]
      rw [h2, h1]
      have := @List.range'_concat 1 1 st.chunks.length
      simp only [one_mul] at this
      rw [show st.chunks.length + 0 + 1 = st.chunks.length + 1 by omega, this]
      simp [Nat.add_comm]

theorem chunkIdInv_add (content : String) (st : ChunkState) (h : chunkIdInv st) :
    chunkIdInv (add_content_with_count content st) := h

theorem chunkIdInv_start_new (st : ChunkState) (h : chunkIdInv st) :
    chunkIdInv (start_new_chunk_with_header st) := by
  unfold chunkIdInv start_new_chunk_with_header at *
  cases st.header with
  | none => exact h
  | some hd => by_cases hhd : hd = "" <;> simpa [hhd] using h

theorem chunkIdInv_processLine (chunk_size : Nat) (page : String)
    (page_id : Option String) (st : ChunkState) (line : String)
    (h : chunkIdInv st) :
    chunkIdInv (processLine chunk_size page page_id st line) := by
  by_cases hb : pyStrip line = ""
  · rw [processLine_blank _ _ _ _ _ hb]; exact h
  · cases hp : parseHeading (pyStrip line) with
    | some lt =>
        cases lt with
        | mk level header_text =>
            rw [processLine_heading _ _ _ _ _ _ _ hp]
            have hf := chunkIdInv_flush page page_id st h
            exact hf
    | none =>
        by_cases hw : (add_content_with_count (pyStrip line) st).word_count ≥ chunk_size
        · rw [processLine_content_flush _ _ _ _ _ hb hp hw]
          exact chunkIdInv_start_new _ (chunkIdInv_flush _ _ _ h)
        · rw [processLine_content_small _ _ _ _ _ hb hp hw]
          exact h

theorem chunkIdInv_fold (chunk_size : Nat) (page : String)
    (page_id : Option String) :
    ∀ (lines : List String) (st : ChunkState), chunkIdInv st →
      chunkIdInv (lines.foldl (processLine chunk_size page page_id) st) := by
  intro lines
  induction lines with
  | nil => intro st h; exact h
  | cons l rest ih =>
      intro st h
      exact ih _ (chunkIdInv_processLine _ _ _ _ _ h)

/-- C7.  Chunk-id density: the `chunk_id` values of the chunks emitted for a
single document are exactly `1..N` in emission order, with no gaps and no
repeats; the numbering starts at 1 afresh in every run of `chunk_md_file`
(so ids are unique only per page, not globally). -/
theorem chunk_id_dense (c : TextChunker) (base : String) (lines : List String) :
    (chunk_md_file c base lines).map Chunk.chunk_id
      = List.range' 1 (chunk_md_file c base lines).length := by
  unfold chunk_md_file
  simp only []
  have h := chunkIdInv_flush (strip_page_id base).1 (strip_page_id base).2 _
    (chunkIdInv_fold c.chunk_size (strip_page_id base).1 (strip_page_id base).2
      lines initState chunkIdInv_init)
  exact h.2

/-! ### Header-path truncation (C6) -/

/-- C6.  Header-path truncation: in general, processing a level-`k` heading
line truncates the header path to its first `k - 1` entries and appends the
new heading's title; in particular, on the document `H1 "A"`, `H2 "B"`,
`H2 "C"`, `H3 "D"` the paths attached to the emitted chunks are `["A"]`,
`["A","B"]`, `["A","C"]` (after `H2 "C"`, not `["A","B","C"]`) and
`["A","C","D"]` (after `H3 "D"`). -/
theorem header_path_correct :
    (∀ (chunk_size : Nat) (page : String) (page_id : Option String)
       (st : ChunkState) (line : String) (level : Nat) (header_text : String),
       parseHeading (pyStrip line) = some (level, header_text) →
       (processLine chunk_size page page_id st line).header_path
         = st.header_path.take (level - 1) ++ [header_text]) ∧
    (chunk_md_file ⟨1000, 200⟩ "doc" ["# A", "## B", "## C", "### D"]).map
        Chunk.header_path
      = [["A"], ["A", "B"], ["A", "C"], ["A", "C", "D"]] := by
  constructor
  · intro chunk_size page page_id st line level header_text hp
    rw [processLine_heading _ _ _ _ _ _ _ hp]
    show (flush_chunk page page_id st).header_path.take (level - 1)
        ++ [header_text] = _
    rw [flush_chunk_header_path]
  · decide

/-- Witness for C6: applying the general part at a concrete state whose path
is `["A","B"]` and at the heading line `## C` yields the truncated path
`["A","C"]`. -/
theorem header_path_correct_witness :
    (processLine 1000 "doc" none
        { initState with header_path := ["A", "B"] } "## C").header_path
      = ["A", "C"] := by
  have h := header_path_correct.1 1000 "doc" none
    { initState with header_path := ["A", "B"] } "## C" 2 "C" (by decide)
  simpa using h

/-! ### `chunk_overlap` is a no-op (C5) -/

/-- C5.  Overlap independence: `chunk_md_file` never consults
`chunk_overlap`, so for a fixed `chunk_size` its output is identical for any
two values of `chunk_overlap`. -/
theorem overlap_noop (size o₁ o₂ : Nat) (base : String) (lines : List String) :
    chunk_md_file { chunk_size := size, chunk_overlap := o₁ } base lines
      = chunk_md_file { chunk_size := size, chunk_overlap := o₂ } base lines := rfl

/-! ### Header re-injection on forced split (C2) -/

/-- The C2 scenario: one (two-word) heading line followed by twelve one-word
content lines. -/
def docTwelve : List String :=
  ["# h", "w1", "w2", "w3", "w4", "w5", "w6", "w7", "w8", "w9", "w10", "w11", "w12"]

/-- C2, counterexample: with `chunk_size = 5`, a section of one heading line
and 12 one-word content lines yields 5 chunks, not the 3 the claim states
(the re-injected header's own two words count toward the budget, so each
continuation chunk absorbs only three content words, and the final re-seeded
buffer is flushed as a header-only chunk). -/
theorem header_reinjection_counterexample :
    (chunk_md_file ⟨5, 200⟩ "doc" docTwelve).length = 5 ∧
    ¬ (chunk_md_file ⟨5, 200⟩ "doc" docTwelve).length = 3 := by decide

/-- C2, amended.  With `chunk_size = 5` and a section of one two-word
heading line followed by 12 one-word content lines, exactly 5 chunks are
produced; chunks 2–5 each begin with the heading line re-injected as their
first content line (chunk 5 consists of the re-injected heading alone). -/
theorem header_reinjection_amended :
    (chunk_md_file ⟨5, 200⟩ "doc" docTwelve).map Chunk.content
      = ["# h\nw1\nw2\nw3", "# h\nw4\nw5\nw6", "# h\nw7\nw8\nw9",
         "# h\nw10\nw11\nw12", "# h"] := by decide

/-! ### Constructor falsy-argument behaviour (C10) -/

/-- C10.  Constructing `TextChunker` with an explicit falsy argument
(`chunk_size=0` or `chunk_overlap=0`) silently replaces it with the
configured default (1000 resp. 200) rather than 0; consequently a zero
chunk size (or overlap) can never be requested through the constructor. -/
theorem constructor_zero_uses_default :
    TextChunker.init (some 0) (some 0) = ⟨1000, 200⟩ ∧
    TextChunker.init (some 0) (some 7) = ⟨1000, 7⟩ ∧
    TextChunker.init (some 7) (some 0) = ⟨7, 200⟩ ∧
    (∀ a b : Option Nat,
      (TextChunker.init a b).chunk_size ≠ 0 ∧ (TextChunker.init a b).chunk_overlap ≠ 0) := by
  refine ⟨rfl, rfl, rfl, ?_⟩
  intro a b
  constructor
  · cases a with
    | none => simp [TextChunker.init, pyOrNat, RAG_CONFIG_chunk_size]
    | some v =>
        by_cases hv : v = 0 <;>
          simp [TextChunker.init, pyOrNat, RAG_CONFIG_chunk_size, hv]
  · cases b with
    | none => simp [TextChunker.init, pyOrNat, RAG_CONFIG_chunk_overlap]
    | some v =>
        by_cases hv : v = 0 <;>
          simp [TextChunker.init, pyOrNat, RAG_CONFIG_chunk_overlap, hv]

/-! ### Embedder (`src/retrieval/embeddings.py`)

The sentence-transformer model is abstracted as an encoding function
`enc : String → String → V` (model name and text to vector); constructing
`SentenceTransformer(name)` is the observable "load" event, recorded as the
list of loaded model names. -/

/-- The instance attributes of `EmbeddingManager`: the configured model name
and the loaded model (`None` until `_load_model` runs; afterwards the name
of the loaded sentence transformer). -/
structure EmbeddingManager where
  model_name : String
  model : Option String
  deriving Repr, DecidableEq

/-- Embedding of `_load_model`: construct the sentence transformer for the
configured name (recorded as a load event) and store it. -/
def EmbeddingManager.load_model (m : EmbeddingManager) :
    EmbeddingManager × List String :=
  ({ m with model := some m.model_name }, [m.model_name])

/-- Embedding of `EmbeddingManager.__init__(model_name=None)`: resolve the
name (falsy argument selects the `RAG_CONFIG` default), set `model = None`,
then immediately call `_load_model`. -/
def EmbeddingManager.init (model_name : Option String) :
    EmbeddingManager × List String :=
  let m : EmbeddingManager :=
    { model_name := pyOrStr model_name RAG_CONFIG_embedding_model
      model := none }
  m.load_model

/-- Embedding of `encode_text`: load the model if it is `None`, then encode
the text. -/
def EmbeddingManager.encode_text {V : Type} (enc : String → String → V)
    (m : EmbeddingManager) (text : String) :
    EmbeddingManager × List String × V :=
  let s := if m.model.isNone then m.load_model else (m, [])
  (s.1, s.2, enc (s.1.model.getD s.1.model_name) text)

/-- A Qdrant point's denormalized payload. -/
structure PointPayload where
  page : String
  page_id : Option String
  header_path : List String
  content : String
  deriving Repr, DecidableEq

/-- A Qdrant `PointStruct`, with the vector type abstract. -/
structure PointStruct (V : Type) where
  id : Nat
  vector : V
  payload : PointPayload
  deriving Repr, DecidableEq

/-- The body of `encode_chunks`' loop: one chunk becomes one point carrying
the chunk's id, the encoded content as vector, and the four payload fields
copied from the chunk. -/
def chunkToPoint {V : Type} (enc : String → String → V) (modelName : String)
    (chunk : Chunk) : PointStruct V :=
  { id := chunk.chunk_id
    vector := enc modelName chunk.content
    payload :=
      { page := chunk.page, page_id := chunk.page_id
        header_path := chunk.header_path, content := chunk.content } }

/-- Embedding of `encode_chunks`: load the model if it is `None`, then map
each chunk, in order, to its point. -/
def EmbeddingManager.encode_chunks {V : Type} (enc : String → String → V)
    (m : EmbeddingManager) (chunks : List Chunk) :
    EmbeddingManager × List String × List (PointStruct V) :=
  let s := if m.model.isNone then m.load_model else (m, [])
  (s.1, s.2, chunks.map (chunkToPoint enc (s.1.model.getD s.1.model_name)))

/-- A call against an embedding-manager instance. -/
inductive EmbCall where
  | encText (text : String)
  | encChunks (chunks : List Chunk)
  deriving Repr

/-- Run a sequence of calls against an embedding manager, collecting every
model-load event. -/
def runEmbCalls {V : Type} (enc : String → String → V) :
    EmbeddingManager → List EmbCall → EmbeddingManager × List String
  | m, [] => (m, [])
  | m, c :: rest =>
      let step : EmbeddingManager × List String :=
        match c with
        | EmbCall.encText t =>
            let r := EmbeddingManager.encode_text enc m t
            (r.1, r.2.1)
        | EmbCall.encChunks cs =>
            let r := EmbeddingManager.encode_chunks enc m cs
            (r.1, r.2.1)
      let next := runEmbCalls enc step.1 rest
      (next.1, step.2 ++ next.2)

/-- C3, counterexample: constructing an embedding manager already loads the
model — the `__init__` trace contains a load event — so loading is *not*
deferred to first use as the claim states. -/
theorem lazy_loading_counterexample :
    (EmbeddingManager.init none).2 ≠ [] ∧
    (EmbeddingManager.init none).2 = ["all-MiniLM-L6-v2"] := by decide

/-- A manager whose model is already loaded encodes text without reloading
and without changing state. -/
theorem encode_text_no_reload {V : Type} (enc : String → String → V)
    (m : EmbeddingManager) (text : String) (h : m.model.isSome) :
    (EmbeddingManager.encode_text enc m text).1 = m ∧
    (EmbeddingManager.encode_text enc m text).2.1 = [] := by
  unfold EmbeddingManager.encode_text
  have h' : m.model.isNone = false := by
    cases hm : m.model with
    | none => rw [hm] at h; simp [Option.isSome] at h
    | some v => simp [Option.isNone]
  simp [h']

/-- A manager whose model is already loaded encodes chunks without reloading
and without changing state. -/
theorem encode_chunks_no_reload {V : Type} (enc : String → String → V)
    (m : EmbeddingManager) (chunks : List Chunk) (h : m.model.isSome) :
    (EmbeddingManager.encode_chunks enc m chunks).1 = m ∧
    (EmbeddingManager.encode_chunks enc m chunks).2.1 = [] := by
  unfold EmbeddingManager.encode_chunks
  have h' : m.model.isNone = false := by
    cases hm : m.model with
    | none => rw [hm] at h; simp [Option.isSome] at h
    | some v => simp [Option.isNone]
  simp [h']

/-- C3, amended: the model is loaded eagerly, exactly once, at construction
(not lazily on first use) and cached for the lifetime of the instance: after
`__init__`, any sequence of `encode_text`/`encode_chunks` calls performs no
further load and leaves the manager unchanged. -/
theorem model_loaded_at_init_and_cached {V : Type} (enc : String → String → V)
    (arg : Option String) (calls : List EmbCall) :
    (EmbeddingManager.init arg).2 = [(EmbeddingManager.init arg).1.model_name] ∧
    runEmbCalls enc (EmbeddingManager.init arg).1 calls
      = ((EmbeddingManager.init arg).1, []) := by
  constructor
  · rfl
  · have hsome : ((EmbeddingManager.init arg).1).model.isSome := rfl
    generalize hm : (EmbeddingManager.init arg).1 = m at hsome ⊢
    clear hm
    induction calls with
    | nil => rfl
    | cons c rest ih =>
        cases c with
        | encText t =>
            have h := encode_text_no_reload enc m t hsome
            unfold runEmbCalls
            simp only [h.1, h.2, ih, List.nil_append]
        | encChunks cs =>
            have h := encode_chunks_no_reload enc m cs hsome
            unfold runEmbCalls
            simp only [h.1, h.2, ih, List.nil_append]

/-- C8.  Embedder mapping: `encode_chunks` returns one point per chunk in
input order; the `i`-th point's id is the `i`-th chunk's `chunk_id` and its
payload copies that chunk's `page`, `page_id`, `header_path` and `content`. -/
theorem encode_chunks_mapping {V : Type} (enc : String → String → V)
    (m : EmbeddingManager) (chunks : List Chunk) (i : Nat)
    (hi : i < chunks.length) :
    ((EmbeddingManager.encode_chunks enc m chunks).2.2).length = chunks.length ∧
    ∃ c pt, chunks[i]? = some c ∧
      ((EmbeddingManager.encode_chunks enc m chunks).2.2)[i]? = some pt ∧
      pt.id = c.chunk_id ∧
      pt.payload.page = c.page ∧
      pt.payload.page_id = c.page_id ∧
      pt.payload.header_path = c.header_path ∧
      pt.payload.content = c.content := by
  unfold EmbeddingManager.encode_chunks
  refine ⟨by simp, chunks[i],
    chunkToPoint enc
      (((if m.model.isNone then m.load_model else (m, [])).1).model.getD
        ((if m.model.isNone then m.load_model else (m, [])).1).model_name)
      chunks[i],
    List.getElem?_eq_getElem hi, ?_, rfl, rfl, rfl, rfl, rfl⟩
  simp [List.getElem?_eq_getElem hi]

/-- A concrete chunk used as witness input. -/
def chunkEx : Chunk :=
  { page := "P", page_id := some "x", chunk_id := 1
    header_path := ["H"], content := "body" }

/-- Witness for C8 at a concrete chunk list and index 0. -/
theorem encode_chunks_mapping_witness :
    ((EmbeddingManager.encode_chunks (fun _ _ => ())
        (EmbeddingManager.init none).1 [chunkEx]).2.2).length = [chunkEx].length ∧
    ∃ c pt, ([chunkEx])[0]? = some c ∧
      ((EmbeddingManager.encode_chunks (fun _ _ => ())
          (EmbeddingManager.init none).1 [chunkEx]).2.2)[0]? = some pt ∧
      pt.id = c.chunk_id ∧
      pt.payload.page = c.page ∧
      pt.payload.page_id = c.page_id ∧
      pt.payload.header_path = c.header_path ∧
      pt.payload.content = c.content :=
  encode_chunks_mapping (fun _ _ => ()) (EmbeddingManager.init none).1
    [chunkEx] 0 (by decide)

/-! ### Vector index setup (`src/retrieval/search.py`)

The Qdrant client is modelled as an explicit collection store; creating a
collection that already exists is the error the real backend raises, so the
guard in `setup_collection` is what makes setup exception-free. -/

/-- Default collection name from `src/config/settings.py`
(`QDRANT_COLLECTION_NAME` with no environment override). -/
def QDRANT_COLLECTION_NAME : String := "notion_chunks"

/-- Distance metrics of `qdrant_client.models.Distance` used here. -/
inductive QdrantDistance where
  | cosine
  | euclid
  | dot
  deriving Repr, DecidableEq

/-- `qdrant_client.models.VectorParams`. -/
structure VectorParams where
  size : Nat
  distance : QdrantDistance
  on_disk : Bool
  deriving Repr, DecidableEq

/-- A collection held by the Qdrant backend. -/
structure QdrantCollection where
  name : String
  params : VectorParams
  points_count : Nat
  deriving Repr, DecidableEq

/-- The backend state: the list of existing collections. -/
structure QdrantState where
  collections : List QdrantCollection
  deriving Repr, DecidableEq

/-- The client operations `setup_collection` can issue. -/
inductive QdrantOp where
  | getCollections
  | createCollection (name : String) (params : VectorParams)
  deriving Repr, DecidableEq

/-- `client.create_collection`: raises when a collection with that name
already exists, else adds an empty collection with the given parameters. -/
def create_collection (st : QdrantState) (name : String) (p : VectorParams) :
    Except String QdrantState :=
  if name ∈ st.collections.map QdrantCollection.name then
    Except.error "collection already exists"
  else
    Except.ok
      { collections := st.collections ++ [{ name := name, params := p, points_count := 0 }] }

/-- The instance attributes of `RAGSearch` that matter for setup. -/
structure RAGSearch where
  collection_name : String
  deriving Repr, DecidableEq

/-- Embedding of `RAGSearch.__init__`'s collection-name resolution (falsy
argument selects the configured default). -/
def RAGSearch.init (collection_name : Option String) : RAGSearch :=
  { collection_name := pyOrStr collection_name QDRANT_COLLECTION_NAME }

/-- The fixed parameters `setup_collection` creates with: size 384
(all-MiniLM-L6-v2), cosine distance, kept in RAM. -/
def setupVectorParams : VectorParams :=
  { size := 384, distance := QdrantDistance.cosine, on_disk := false }

/-- Embedding of `RAGSearch.setup_collection`: list the collections; if one
with the configured name exists, return; otherwise create it with dimension
384 and cosine distance.  Returns the new backend state and the operations
issued. -/
def setup_collection (r : RAGSearch) (st : QdrantState) :
    Except String (QdrantState × List QdrantOp) :=
  let collection_names := st.collections.map QdrantCollection.name
  if r.collection_name ∈ collection_names then
    Except.ok (st, [QdrantOp.getCollections])
  else
    match create_collection st r.collection_name setupVectorParams with
    | Except.error e => Except.error e
    | Except.ok st' =>
        Except.ok (st',
          [QdrantOp.getCollections,
           QdrantOp.createCollection r.collection_name setupVectorParams])

/-- C9.  Idempotent setup: `setup_collection` never raises; a second call in
succession returns the same state and issues no create operation; when the
collection already exists the first call leaves the state untouched and
issues no create; and when it does not exist the collection is created with
dimensionality 384 and cosine distance. -/
theorem setup_collection_idempotent (r : RAGSearch) (st : QdrantState) :
    ∃ st₁ ops₁, setup_collection r st = Except.ok (st₁, ops₁) ∧
      setup_collection r st₁ = Except.ok (st₁, [QdrantOp.getCollections]) ∧
      (r.collection_name ∈ st.collections.map QdrantCollection.name →
        st₁ = st ∧ ops₁ = [QdrantOp.getCollections]) ∧
      (r.collection_name ∉ st.collections.map QdrantCollection.name →
        st₁.collections = st.collections
          ++ [{ name := r.collection_name
                params := { size := 384, distance := QdrantDistance.cosine, on_disk := false }
                points_count := 0 }]) := by
  by_cases hmem : r.collection_name ∈ st.collections.map QdrantCollection.name
  · refine ⟨st, [QdrantOp.getCollections], ?_, ?_, fun _ => ⟨rfl, rfl⟩, fun hn => absurd hmem hn⟩
    · unfold setup_collection
      simp [hmem]
    · unfold setup_collection
      simp [hmem]
  · refine ⟨{ collections := st.collections
        ++ [{ name := r.collection_name, params := setupVectorParams, points_count := 0 }] },
      [QdrantOp.getCollections,
       QdrantOp.createCollection r.collection_name setupVectorParams],
      ?_, ?_, fun hm => absurd hm hmem, fun _ => rfl⟩
    · unfold setup_collection create_collection
      simp [hmem]
    · unfold setup_collection
      simp

/-- Witness for C9: on an empty backend with the default collection name,
setup succeeds, creates `notion_chunks` with dimension 384 and cosine
distance, and a repeated call is a no-op. -/
theorem setup_collection_idempotent_witness :
    ∃ st₁ ops₁,
      setup_collection (RAGSearch.init none) { collections := [] }
        = Except.ok (st₁, ops₁) ∧
      setup_collection (RAGSearch.init none) st₁
        = Except.ok (st₁, [QdrantOp.getCollections]) ∧
      ((RAGSearch.init none).collection_name
          ∈ (QdrantState.mk []).collections.map QdrantCollection.name →
        st₁ = { collections := [] } ∧ ops₁ = [QdrantOp.getCollections]) ∧
      ((RAGSearch.init none).collection_name
          ∉ (QdrantState.mk []).collections.map QdrantCollection.name →
        st₁.collections = ([] : List QdrantCollection)
          ++ [{ name := (RAGSearch.init none).collection_name
                params := { size := 384, distance := QdrantDistance.cosine, on_disk := false }
                points_count := 0 }]) :=
  setup_collection_idempotent (RAGSearch.init none) { collections := [] }

/-! ### Pipeline orchestrator (`src/retrieval/rag_pipeline.py`)

`NotionProcessor.__init__` assigns the instance attribute `self.search` (a
`RAGSearch` object) while the class also defines a method named `search`;
Python attribute lookup consults the instance `__dict__` before plain class
functions, so the method is shadowed.  The lookup is modelled explicitly. -/

/-- The values an attribute of a `NotionProcessor` instance can name. -/
inductive PyAttr where
  | qdrantClient
  | textChunker
  | embeddingManager
  | ragSearchInstance
  | classMethod (name : String)
  deriving Repr, DecidableEq

/-- The instance `__dict__` written by `NotionProcessor.__init__`, in
assignment order (`client`, `chunker`, `embedding_manager`, `search`). -/
def notionProcessorInstanceDict : List (String × PyAttr) :=
  [("client", PyAttr.qdrantClient),
   ("chunker", PyAttr.textChunker),
   ("embedding_manager", PyAttr.embeddingManager),
   ("search", PyAttr.ragSearchInstance)]

/-- The plain functions defined in `class NotionProcessor`'s body. -/
def notionProcessorClassDict : List String :=
  ["setup", "process_export", "load_to_qdrant", "setup_pipeline", "search", "get_stats"]

/-- Python attribute lookup on a constructed `NotionProcessor` instance:
the instance `__dict__` takes precedence over plain class functions
(functions are non-data descriptors). -/
def notionProcessorGetattr (name : String) : Option PyAttr :=
  match notionProcessorInstanceDict.find? (fun kv => kv.1 = name) with
  | some kv => some kv.2
  | none =>
      if name ∈ notionProcessorClassDict then some (PyAttr.classMethod name)
      else none

/-- Which attribute values are callable: plain functions are; a `RAGSearch`
instance defines no `__call__` and is not. -/
def pyCallable : PyAttr → Bool
  | PyAttr.classMethod _ => true
  | _ => false

/-- C4 (code-bug evidence).  On every constructed `NotionProcessor`
instance, the attribute `search` resolves to the `RAGSearch` object stored
by `__init__`, not to the class's `search` method, and that object is not
callable — so invoking the orchestrator's query operation raises `TypeError`
instead of running the embed→search→format flow. -/
theorem notion_processor_search_shadowed :
    notionProcessorGetattr "search" = some PyAttr.ragSearchInstance ∧
    pyCallable PyAttr.ragSearchInstance = false ∧
    "search" ∈ notionProcessorClassDict := by decide

end AiBrain
